import Mathlib

/-!
Shallow embedding of the nv9 state-tree migration pipeline
(`actors/migration/nv9/top.go`) and proofs of the specification claims.

Modelling conventions:
* Addresses and content identifiers (CIDs) are `Nat`.
* The IPLD store is an explicit value threaded through migration
  capabilities; a capability returns the (possibly extended) store next to
  its result, making store writes observable.
* The concurrent producer / worker-pool / result-writer pipeline of
  `MigrateStateTree` is embedded as a function of the data it consumes.
  The only observable nondeterminism of the concurrency is the order in
  which worker results reach the single result writer; that order is an
  explicit parameter `sched`, constrained in theorems to be a permutation
  of the result list.  `workerCount = 1` corresponds to `sched = id`.
* A Go `panic` (the registry-completeness assertion, and the runtime
  nil-interface-method crash when a job carries a missing capability) is a
  distinct outcome constructor `MigOutcome.panicked`, separate from a
  returned error.
* Flushing the output HAMT is content addressed: the returned root is
  determined exactly by the final address → actor map, embedded as the
  `Finset` of its entries (`flushTree`).
-/

abbrev Address := Nat

abbrev Cid := Nat

/-- The IPLD store, a content map from CID to node payload. -/
abbrev Store := List (Nat × Nat)

/-- Embedding of `states2.Actor`: an actor record of the input (v2) state tree. -/
structure Actor where
  Code : Cid
  Head : Cid
  CallSeqNum : Nat
  Balance : Int
deriving DecidableEq, Repr

/-- Embedding of `states3.Actor`: an actor record of the output (v3) state tree. -/
structure Actor3 where
  Code : Cid
  Head : Cid
  CallSeqNum : Nat
  Balance : Int
deriving DecidableEq, Repr

/-- Capability input `StateMigrationInput` (top.go lines 42-47). -/
structure StateMigrationInput where
  address : Address
  balance : Int
  head : Cid
  priorEpoch : Int
deriving DecidableEq, Repr

/-- Capability result `StateMigrationResult` (top.go lines 49-52). -/
structure StateMigrationResult where
  NewCodeCID : Cid
  NewHead : Cid
deriving DecidableEq, Repr

/-- The `StateMigration` capability interface (top.go lines 54-58).  A
capability reads the store and the input and either fails or returns a
result together with the store extended by whatever it wrote. -/
def StateMigration : Type :=
  Store → StateMigrationInput → Except String (StateMigrationResult × Store)

/-- Structure `nilMigrator` (top.go lines 60-63): migrator which preserves the head
CID and provides a fixed result code CID. -/
structure nilMigrator where
  OutCodeCID : Cid

/-- Method `nilMigrator.MigrateState` (top.go lines 65-70): ignores the store,
returns the fixed code CID and the input head, and never fails. -/
def nilMigrator.MigrateState (n : nilMigrator) : StateMigration :=
  fun store inp =>
    Except.ok ({ NewCodeCID := n.OutCodeCID, NewHead := inp.head }, store)

/-- Modelled from the spec: `builtin2.ActorNameByCode` lives outside the
embedded file; migration errors are wrapped with "the record's type name".
Any concrete naming function is adequate to state the wrapping claims. -/
def ActorNameByCode (c : Cid) : String :=
  if c = 0 then "account"
  else if c = 1 then "cron"
  else if c = 2 then "init"
  else if c = 3 then "multisig"
  else if c = 4 then "paymentchannel"
  else if c = 5 then "reward"
  else if c = 6 then "storagemarket"
  else if c = 7 then "storageminer"
  else if c = 8 then "storagepower"
  else if c = 9 then "system"
  else if c = 10 then "verifiedregistry"
  else "<unknown>"

/-- Job type `migrationInput` (top.go lines 240-244).  The capability field is an
`Option` because the Go map index `migrations[actorIn.Code]` yields the
nil interface value for a key with no mapping. -/
structure migrationInput where
  Address : Address
  Actor : Actor
  stateMigration : Option StateMigration

/-- Outcome of one worker job: a migrated record, a wrapped capability
error (top.go line 260), or the runtime crash of invoking a nil
capability interface (top.go line 253 with a nil `StateMigration`). -/
inductive JobResult where
  | ok (address : Address) (actor : Actor3)
  | failed (name : String) (address : Address) (msg : String)
  | nilPanic (address : Address)
deriving DecidableEq, Repr

/-- The address a job outcome is about. -/
def JobResult.address : JobResult → Address
  | .ok a _ => a
  | .failed _ a _ => a
  | .nilPanic a => a

/-- Worker body `migrateOneActor` (top.go lines 250-273): invoke the job's capability
on the snapshot; on success build the new record taking `Code` and `Head`
from the capability result and copying `CallSeqNum` and `Balance` from the
input; the address is unchanged. -/
def migrateOneActor (store : Store) (input : migrationInput) (priorEpoch : Int) :
    JobResult :=
  match input.stateMigration with
  | none => .nilPanic input.Address
  | some m =>
    match m store { address := input.Address, balance := input.Actor.Balance,
                    head := input.Actor.Head, priorEpoch := priorEpoch } with
    | .error e => .failed (ActorNameByCode input.Actor.Code) input.Address e
    | .ok (result, _) =>
      .ok input.Address
        { Code := result.NewCodeCID, Head := result.NewHead,
          CallSeqNum := input.Actor.CallSeqNum, Balance := input.Actor.Balance }

/-- A Go `panic` escaping `MigrateStateTree`. -/
inductive PanicKind where
  | incompleteSpec (n : Nat)
  | nilCapability (address : Address)
deriving DecidableEq, Repr

/-- An error returned by `MigrateStateTree`. -/
inductive MigErr where
  | invalidConfig (workers : Nat)
  | migrationError (name : String) (address : Address) (msg : String)
deriving DecidableEq, Repr

/-- Outcome of a whole run: a flushed root (the content of the output
tree), a returned error alongside `cid.Undef` (no root), or a panic. -/
inductive MigOutcome where
  | ok (root : Finset (Address × Actor3))
  | error (e : MigErr)
  | panicked (p : PanicKind)
deriving DecidableEq

/-- Job production (top.go lines 128-152): enumerate the input tree in its
native order, skip records whose code is deferred, and package each
remaining record with the registry lookup of its code. -/
def migrationJobs (migs : List (Cid × StateMigration)) (defs : List Cid)
    (actorsIn : List (Address × Actor)) : List migrationInput :=
  (actorsIn.filter fun p => !(defs.contains p.2.Code)).map
    fun p => { Address := p.1, Actor := p.2, stateMigration := migs.lookup p.2.Code }

/-- Worker execution (top.go lines 154-176): every job is run through
`migrateOneActor` against the shared store. -/
def jobOutcomes (migs : List (Cid × StateMigration)) (defs : List Cid)
    (store : Store) (actorsIn : List (Address × Actor)) (priorEpoch : Int) :
    List JobResult :=
  (migrationJobs migs defs actorsIn).map fun j => migrateOneActor store j priorEpoch

/-- First-error-wins of the errgroup (top.go lines 119, 227-229): the
first job outcome that is not a success decides the run. -/
def firstBad : List JobResult → Option MigOutcome
  | [] => none
  | .ok _ _ :: rs => firstBad rs
  | .failed n a m :: _ => some (.error (.migrationError n a m))
  | .nilPanic a :: _ => some (.panicked (.nilCapability a))

/-- The successfully migrated records, in job order. -/
def okResults : List JobResult → List (Address × Actor3)
  | [] => []
  | .ok a act :: rs => (a, act) :: okResults rs
  | .failed _ _ _ :: rs => okResults rs
  | .nilPanic _ :: rs => okResults rs

/-- Insertion `states3.Tree.SetActor` on the output HAMT (top.go line 218): map
update, overwriting the entry of an existing address. -/
def setActor (t : List (Address × Actor3)) (a : Address) (act : Actor3) :
    List (Address × Actor3) :=
  if (t.map Prod.fst).contains a then
    t.map fun p => if p.1 = a then (a, act) else p
  else t ++ [(a, act)]

/-- The result writer (top.go lines 213-225): the sole mutator of the
output tree, inserting each received result under its address. -/
def writeResults (rs : List (Address × Actor3)) : List (Address × Actor3) :=
  rs.foldl (fun t r => setActor t r.1 r.2) []

/-- Flushing `actorsOut.Flush()` (top.go line 237): the returned root identifier is
content addressed, determined exactly by the final address → actor map;
it is embedded as the set of entries of that map. -/
def flushTree (t : List (Address × Actor3)) : Finset (Address × Actor3) :=
  t.toFinset

/-- The registry-completeness assertion guard (top.go line 102): the
number of distinct mapped code CIDs plus the number of distinct deferred
code CIDs must be 11. -/
def registrySizeOk (migs : List (Cid × StateMigration)) (defs : List Cid) : Prop :=
  (migs.map Prod.fst).dedup.length + defs.dedup.length = 11

instance (migs : List (Cid × StateMigration)) (defs : List Cid) :
    Decidable (registrySizeOk migs defs) := by
  unfold registrySizeOk; infer_instance

/-- Pipeline `MigrateStateTree` (top.go lines 79-238) with the registry and
deferred set as parameters (the source builds them locally; the concrete
instance is `MigrateStateTree` below).  `sched` is the order in which
worker results reach the result writer, the one observable
nondeterminism of the worker pool. -/
def migrateTree (migs : List (Cid × StateMigration)) (defs : List Cid)
    (maxWorkers : Nat)
    (sched : List (Address × Actor3) → List (Address × Actor3))
    (store : Store) (actorsIn : List (Address × Actor)) (priorEpoch : Int) :
    MigOutcome :=
  if maxWorkers = 0 then .error (.invalidConfig maxWorkers)
  else if (migs.map Prod.fst).dedup.length + defs.dedup.length ≠ 11 then
    .panicked (.incompleteSpec (migs.map Prod.fst).dedup.length)
  else
    match firstBad (jobOutcomes migs defs store actorsIn priorEpoch) with
    | some bad => bad
    | none =>
      .ok (flushTree (writeResults
        (sched (okResults (jobOutcomes migs defs store actorsIn priorEpoch)))))

/-- Modelled from the spec: the complete, known set of valid input type
tags - the eleven v2 builtin code CIDs (`builtin2.*ActorCodeID`, outside
the embedded file), embedded as 0..10 in the order of top.go lines 86-96. -/
def validCodeIDs : List Cid := [0, 1, 2, 3, 4, 5, 6, 7, 8, 9, 10]

/-- The migration registry of top.go lines 85-97.  The four nilMigrator
entries are from the source; the seven type-specific migrators live in
other files of the repository and are parameters. -/
def migrations (initM msigM paychM marketM minerM powerM verifregM : StateMigration) :
    List (Cid × StateMigration) :=
  [(0, (nilMigrator.mk 100).MigrateState),   -- Account
   (1, (nilMigrator.mk 101).MigrateState),   -- Cron
   (2, initM),                               -- Init
   (3, msigM),                               -- Multisig
   (4, paychM),                              -- PaymentChannel
   (5, (nilMigrator.mk 105).MigrateState),   -- Reward
   (6, marketM),                             -- StorageMarket
   (7, minerM),                              -- StorageMiner
   (8, powerM),                              -- StoragePower
   (9, (nilMigrator.mk 109).MigrateState),   -- System
   (10, verifregM)]                          -- VerifiedRegistry

/-- The deferred set of top.go lines 98-101: empty. -/
def deferredCodeIDs : List Cid := []

/-- The concrete `MigrateStateTree` entry point, instantiating
`migrateTree` with the registry of top.go lines 85-101. -/
def MigrateStateTree
    (initM msigM paychM marketM minerM powerM verifregM : StateMigration)
    (maxWorkers : Nat)
    (sched : List (Address × Actor3) → List (Address × Actor3))
    (store : Store) (actorsIn : List (Address × Actor)) (priorEpoch : Int) :
    MigOutcome :=
  migrateTree (migrations initM msigM paychM marketM minerM powerM verifregM)
    deferredCodeIDs maxWorkers sched store actorsIn priorEpoch

/-- The progress monitor's pending computation (top.go line 190):
`jobsNow - doneNow` on `uint32` snapshots, i.e. wrapping subtraction
modulo 2^32. -/
def pendingNow (jobsNow doneNow : Nat) : Nat :=
  (jobsNow + 2 ^ 32 - doneNow) % 2 ^ 32

/-- Counter increment `atomic.AddUint32(&c, 1)` (top.go lines 145, 171): wrapping increment
of a `uint32` counter. -/
def addUint32 (c : Nat) : Nat :=
  (c + 1) % 2 ^ 32

/-- A trivial concrete capability used to instantiate theorems on
concrete inputs. -/
def dummyCap : StateMigration := fun store inp =>
  Except.ok ({ NewCodeCID := 0, NewHead := inp.head }, store)

/-- A concrete always-failing capability, for instantiating the
error-path theorems. -/
def failCap : StateMigration := fun _ _ => Except.error "boom"

/-- A concrete job for instantiating `migrateOneActor` theorems. -/
def c2Job : migrationInput :=
  { Address := 3, Actor := { Code := 0, Head := 5, CallSeqNum := 2, Balance := 7 },
    stateMigration := some (nilMigrator.mk 100).MigrateState }

/-- An eleven-entry all-no-op registry for concrete instantiations. -/
def nilRegistry : List (Cid × StateMigration) :=
  (List.range 11).map fun i => (i, (nilMigrator.mk (100 + i)).MigrateState)

/-- A registry mapping code CID 0 to an always-failing capability and the
remaining ten valid code CIDs to a trivial capability. -/
def failRegistry : List (Cid × StateMigration) :=
  (0, failCap) :: (List.range 10).map fun i => (i + 1, dummyCap)

/-- A registry with eleven mapped code CIDs whose union with the (empty)
deferred set is not the set of valid input type tags: it maps 0..9 and 99
instead of 0..10. -/
def skewedRegistry : List (Cid × StateMigration) :=
  (List.range 10).map (fun i => (i, dummyCap)) ++ [(99, dummyCap)]

/- ### Helper lemmas about the pipeline pieces -/

theorem firstBad_shape (rs : List JobResult) (o : MigOutcome)
    (h : firstBad rs = some o) :
    (∃ n a m, o = .error (.migrationError n a m)) ∨
    ∃ a, o = .panicked (.nilCapability a) := by
  induction rs with
  | nil => exact absurd h (by simp [firstBad])
  | cons r rs ih =>
    cases r with
    | ok a act => exact ih (by simpa [firstBad] using h)
    | failed n a m =>
      left
      refine ⟨n, a, m, ?_⟩
      have : some (MigOutcome.error (.migrationError n a m)) = some o := h
      exact (Option.some.inj this).symm
    | nilPanic a =>
      right
      refine ⟨a, ?_⟩
      have : some (MigOutcome.panicked (.nilCapability a)) = some o := h
      exact (Option.some.inj this).symm

theorem firstBad_none_all_ok (rs : List JobResult) (h : firstBad rs = none) :
    ∀ r ∈ rs, ∃ a act, r = .ok a act := by
  induction rs with
  | nil => intro r hr; exact absurd hr (List.not_mem_nil r)
  | cons r rs ih =>
    intro x hx
    cases r with
    | ok a act =>
      rcases List.mem_cons.mp hx with rfl | hx'
      · exact ⟨a, act, rfl⟩
      · exact ih (by simpa [firstBad] using h) x hx'
    | failed n a m => exact absurd h (by simp [firstBad])
    | nilPanic a => exact absurd h (by simp [firstBad])

theorem okResults_map_fst_of_all_ok (rs : List JobResult)
    (h : ∀ r ∈ rs, ∃ a act, r = .ok a act) :
    (okResults rs).map Prod.fst = rs.map JobResult.address := by
  induction rs with
  | nil => rfl
  | cons r rs ih =>
    rcases h r (List.mem_cons_self r rs) with ⟨a, act, rfl⟩
    simp only [okResults, List.map_cons, JobResult.address]
    rw [ih fun x hx => h x (List.mem_cons_of_mem _ hx)]

theorem okResults_length_of_all_ok (rs : List JobResult)
    (h : ∀ r ∈ rs, ∃ a act, r = .ok a act) :
    (okResults rs).length = rs.length := by
  induction rs with
  | nil => rfl
  | cons r rs ih =>
    rcases h r (List.mem_cons_self r rs) with ⟨a, act, rfl⟩
    simp only [okResults, List.length_cons]
    rw [ih fun x hx => h x (List.mem_cons_of_mem _ hx)]

theorem migrateOneActor_address (store : Store) (j : migrationInput) (ep : Int) :
    (migrateOneActor store j ep).address = j.Address := by
  unfold migrateOneActor
  split
  · rfl
  · split <;> rfl

theorem firstBad_append_of_ok (xs ys : List JobResult)
    (h : ∀ r ∈ xs, ∃ a act, r = .ok a act) :
    firstBad (xs ++ ys) = firstBad ys := by
  induction xs with
  | nil => rfl
  | cons r rs ih =>
    rcases h r (List.mem_cons_self r rs) with ⟨a, act, rfl⟩
    simpa [firstBad] using ih fun x hx => h x (List.mem_cons_of_mem _ hx)

theorem setActor_of_not_mem (t : List (Address × Actor3)) (a : Address)
    (act : Actor3) (h : a ∉ t.map Prod.fst) :
    setActor t a act = t ++ [(a, act)] := by
  unfold setActor
  rw [if_neg (by simpa using h)]

theorem foldl_setActor_append (l : List (Address × Actor3)) :
    ∀ t : List (Address × Actor3), ((t ++ l).map Prod.fst).Nodup →
      l.foldl (fun acc r => setActor acc r.1 r.2) t = t ++ l := by
  induction l with
  | nil => intro t _; simp
  | cons x l ih =>
    intro t h
    have hx1 : x.1 ∉ t.map Prod.fst := by
      rw [List.map_append] at h
      intro hmem
      exact (List.nodup_append.mp h).2.2 hmem (by simp)
    have hset : setActor t x.1 x.2 = t ++ [x] := by
      rw [setActor_of_not_mem t x.1 x.2 hx1]
    have hre : ((t ++ [x]) ++ l).map Prod.fst = (t ++ x :: l).map Prod.fst := by
      simp
    calc (x :: l).foldl (fun acc r => setActor acc r.1 r.2) t
        = l.foldl (fun acc r => setActor acc r.1 r.2) (setActor t x.1 x.2) := rfl
      _ = l.foldl (fun acc r => setActor acc r.1 r.2) (t ++ [x]) := by rw [hset]
      _ = (t ++ [x]) ++ l := ih (t ++ [x]) (by rw [hre]; exact h)
      _ = t ++ x :: l := by simp

theorem writeResults_of_nodup_keys (l : List (Address × Actor3))
    (h : (l.map Prod.fst).Nodup) : writeResults l = l := by
  unfold writeResults
  simpa using foldl_setActor_append l [] (by simpa using h)

theorem toFinset_image_fst (l : List (Address × Actor3)) :
    l.toFinset.image Prod.fst = (l.map Prod.fst).toFinset := by
  ext a; simp

theorem jobOutcomes_addresses (migs : List (Cid × StateMigration))
    (defs : List Cid) (store : Store) (tree : List (Address × Actor)) (ep : Int) :
    (jobOutcomes migs defs store tree ep).map JobResult.address =
      (tree.filter fun p => !(defs.contains p.2.Code)).map Prod.fst := by
  unfold jobOutcomes migrationJobs
  rw [List.map_map, List.map_map]
  exact List.map_congr_left fun p _ => migrateOneActor_address store _ ep

theorem jobOutcomes_length (migs : List (Cid × StateMigration))
    (defs : List Cid) (store : Store) (tree : List (Address × Actor)) (ep : Int) :
    (jobOutcomes migs defs store tree ep).length =
      (tree.filter fun p => !(defs.contains p.2.Code)).length := by
  unfold jobOutcomes migrationJobs
  simp

/- ### C6, C9: the no-op migrator -/

/-- C6: for the no-op migration capability applied to any input, the
returned new state root (`NewHead`) equals the input's `head` and the
returned new type tag (`NewCodeCID`) equals the capability's configured
fixed tag (`OutCodeCID`). -/
theorem nilMigrator_preserves_head_fixes_code (n : nilMigrator) (store : Store)
    (inp : StateMigrationInput) :
    ∃ s : Store, n.MigrateState store inp =
      Except.ok ({ NewCodeCID := n.OutCodeCID, NewHead := inp.head }, s) :=
  ⟨store, rfl⟩

/-- C9: the no-op migration capability is total and never fails: for every
store and input it returns a result (never an error), leaves the store
unchanged (no writes), and its result does not depend on the store at all
(no reads). -/
theorem nilMigrator_total_no_store_effects (n : nilMigrator)
    (store store₂ : Store) (inp : StateMigrationInput) :
    (∃ r, n.MigrateState store inp = Except.ok (r, store)) ∧
    (n.MigrateState store inp).map Prod.fst =
      (n.MigrateState store₂ inp).map Prod.fst :=
  ⟨⟨{ NewCodeCID := n.OutCodeCID, NewHead := inp.head }, rfl⟩, rfl⟩

/- ### C2: per-record field provenance -/

/-- C2: whenever `migrateOneActor` succeeds on a job, the output record's
address is the job's address, its `Balance` and `CallSeqNum` are copied
verbatim from the input actor, and its `Code` and `Head` are exactly the
`NewCodeCID` and `NewHead` returned by the job's migration capability. -/
theorem migrateOneActor_copies_balance_and_seq (store : Store)
    (input : migrationInput) (ep : Int) (a : Address) (act3 : Actor3)
    (h : migrateOneActor store input ep = .ok a act3) :
    a = input.Address ∧ act3.Balance = input.Actor.Balance ∧
    act3.CallSeqNum = input.Actor.CallSeqNum ∧
    ∃ m res s, input.stateMigration = some m ∧
      m store { address := input.Address, balance := input.Actor.Balance,
                head := input.Actor.Head, priorEpoch := ep } =
        Except.ok (res, s) ∧
      act3.Code = res.NewCodeCID ∧ act3.Head = res.NewHead := by
  unfold migrateOneActor at h
  split at h
  · exact JobResult.noConfusion h
  · next m heq =>
    split at h
    · exact JobResult.noConfusion h
    · next res s heq2 =>
      injection h with h1 h2
      subst h1; subst h2
      exact ⟨rfl, rfl, rfl, m, res, s, heq, heq2, rfl, rfl⟩

/-- Witness for C2 at a concrete job migrated by a no-op capability. -/
theorem migrateOneActor_copies_balance_and_seq_witness :
    (3 : Address) = c2Job.Address ∧
    (Actor3.mk 100 5 2 7).Balance = c2Job.Actor.Balance ∧
    (Actor3.mk 100 5 2 7).CallSeqNum = c2Job.Actor.CallSeqNum ∧
    ∃ m res s, c2Job.stateMigration = some m ∧
      m [] { address := c2Job.Address, balance := c2Job.Actor.Balance,
             head := c2Job.Actor.Head, priorEpoch := 0 } =
        Except.ok (res, s) ∧
      (Actor3.mk 100 5 2 7).Code = res.NewCodeCID ∧
      (Actor3.mk 100 5 2 7).Head = res.NewHead :=
  migrateOneActor_copies_balance_and_seq [] c2Job 0 3 (Actor3.mk 100 5 2 7) rfl

/- ### C1: address bijection of a successful run -/

/-- C1: after a successful run, the set of addresses in the output tree
equals the set of addresses of the input records whose code CID is not
deferred; moreover the output holds exactly one record per such address
(its cardinality is the number of non-deferred input records), so no
other addresses appear.  `hnodup` is the key-uniqueness invariant of the
input tree and `hs` says the result arrival order is a permutation of
the worker results. -/
theorem migrateTree_address_bijection
    (migs : List (Cid × StateMigration)) (defs : List Cid) (w : Nat)
    (sched : List (Address × Actor3) → List (Address × Actor3))
    (store : Store) (tree : List (Address × Actor)) (ep : Int)
    (root : Finset (Address × Actor3))
    (hnodup : (tree.map Prod.fst).Nodup)
    (hs : ∀ l, (sched l).Perm l)
    (hok : migrateTree migs defs w sched store tree ep = .ok root) :
    root.image Prod.fst =
      ((tree.filter fun p => !(defs.contains p.2.Code)).map Prod.fst).toFinset ∧
    root.card = (tree.filter fun p => !(defs.contains p.2.Code)).length := by
  unfold migrateTree at hok
  split at hok
  · exact MigOutcome.noConfusion hok
  split at hok
  · exact MigOutcome.noConfusion hok
  split at hok
  · next bad hb =>
    rcases firstBad_shape _ _ hb with ⟨n, a, s, rfl⟩ | ⟨a, rfl⟩ <;>
      exact MigOutcome.noConfusion hok
  · next hnone =>
    injection hok with hok
    subst hok
    have hallok := firstBad_none_all_ok _ hnone
    have hokmap : (okResults (jobOutcomes migs defs store tree ep)).map Prod.fst =
        (tree.filter fun p => !(defs.contains p.2.Code)).map Prod.fst := by
      rw [okResults_map_fst_of_all_ok _ hallok, jobOutcomes_addresses]
    have hfkeys : ((tree.filter fun p => !(defs.contains p.2.Code)).map
        Prod.fst).Nodup :=
      List.Nodup.sublist ((List.filter_sublist tree).map Prod.fst) hnodup
    have hoknodup : ((okResults (jobOutcomes migs defs store tree ep)).map
        Prod.fst).Nodup := by rw [hokmap]; exact hfkeys
    have hperm := hs (okResults (jobOutcomes migs defs store tree ep))
    have hsknodup : ((sched (okResults (jobOutcomes migs defs store tree ep))).map
        Prod.fst).Nodup := (hperm.map Prod.fst).symm.nodup hoknodup
    rw [writeResults_of_nodup_keys _ hsknodup]
    unfold flushTree
    constructor
    · rw [toFinset_image_fst, ← hokmap]
      exact List.toFinset_eq_of_perm _ _ (hperm.map Prod.fst)
    · rw [List.toFinset_card_of_nodup (List.Nodup.of_map Prod.fst hsknodup),
        hperm.length_eq, ← jobOutcomes_length migs defs store tree ep]
      exact okResults_length_of_all_ok _ hallok

/-- Witness for C1: a one-record tree migrated by the no-op registry. -/
theorem migrateTree_address_bijection_witness :
    (({((1 : Address), Actor3.mk 100 5 0 3)} : Finset (Address × Actor3)).image
        Prod.fst =
      (([((1 : Address), Actor.mk 0 5 0 3)].filter
        fun p => !(([] : List Cid).contains p.2.Code)).map Prod.fst).toFinset) ∧
    ({((1 : Address), Actor3.mk 100 5 0 3)} : Finset (Address × Actor3)).card =
      ([((1 : Address), Actor.mk 0 5 0 3)].filter
        fun p => !(([] : List Cid).contains p.2.Code)).length :=
  migrateTree_address_bijection nilRegistry [] 1 id [] [(1, Actor.mk 0 5 0 3)] 0
    {((1 : Address), Actor3.mk 100 5 0 3)} (by decide)
    (fun l => List.Perm.refl l) (by decide)

/- ### C7: determinism and schedule / worker-count independence -/

/-- C7: the outcome of `migrateTree` is a function of the input tree,
registry and prior epoch only: two runs with any positive worker counts
and any result arrival orders (each a permutation of the worker results;
`workerCount = 1` is the identity order) produce identical outcomes - in
particular identical output roots.  Re-running on the same inputs is
trivially the same function application, so this also gives determinism. -/
theorem migrateTree_schedule_independent
    (migs : List (Cid × StateMigration)) (defs : List Cid) (w w' : Nat)
    (sched sched' : List (Address × Actor3) → List (Address × Actor3))
    (store : Store) (tree : List (Address × Actor)) (ep : Int)
    (hw : w ≠ 0) (hw' : w' ≠ 0)
    (hnodup : (tree.map Prod.fst).Nodup)
    (hs : ∀ l, (sched l).Perm l) (hs' : ∀ l, (sched' l).Perm l) :
    migrateTree migs defs w sched store tree ep =
      migrateTree migs defs w' sched' store tree ep := by
  unfold migrateTree
  rw [if_neg hw, if_neg hw']
  by_cases hreg : (migs.map Prod.fst).dedup.length + defs.dedup.length = 11
  · rw [if_neg (by omega), if_neg (by omega)]
    cases hfb : firstBad (jobOutcomes migs defs store tree ep) with
    | some bad => rfl
    | none =>
      have hallok := firstBad_none_all_ok _ hfb
      have hokmap := okResults_map_fst_of_all_ok _ hallok
      have hoknodup : ((okResults (jobOutcomes migs defs store tree ep)).map
          Prod.fst).Nodup := by
        rw [hokmap, jobOutcomes_addresses]
        exact List.Nodup.sublist ((List.filter_sublist tree).map Prod.fst) hnodup
      have hperm := hs (okResults (jobOutcomes migs defs store tree ep))
      have hperm' := hs' (okResults (jobOutcomes migs defs store tree ep))
      rw [writeResults_of_nodup_keys _ ((hperm.map Prod.fst).symm.nodup hoknodup),
        writeResults_of_nodup_keys _ ((hperm'.map Prod.fst).symm.nodup hoknodup)]
      unfold flushTree
      rw [List.toFinset_eq_of_perm _ _ (hperm.trans hperm'.symm)]
  · rw [if_pos (by omega), if_pos (by omega)]

/-- Witness for C7: two workers with reversed result arrival order give
the same outcome as one worker with in-order arrival. -/
theorem migrateTree_schedule_independent_witness :
    migrateTree nilRegistry [] 2 List.reverse []
      [(1, Actor.mk 0 5 0 3), (2, Actor.mk 1 6 1 4)] 0 =
    migrateTree nilRegistry [] 1 id []
      [(1, Actor.mk 0 5 0 3), (2, Actor.mk 1 6 1 4)] 0 :=
  migrateTree_schedule_independent nilRegistry [] 2 1 List.reverse id []
    [(1, Actor.mk 0 5 0 3), (2, Actor.mk 1 6 1 4)] 0 (by norm_num) (by norm_num)
    (by decide) (fun l => l.reverse_perm) (fun l => List.Perm.refl l)

/- ### C3: a failing capability is fatal, with a wrapped error -/

theorem migrationJobs_append_cons (migs : List (Cid × StateMigration))
    (defs : List Cid) (pre post : List (Address × Actor)) (a : Address)
    (act : Actor) (hnd : defs.contains act.Code = false) :
    migrationJobs migs defs (pre ++ (a, act) :: post) =
      migrationJobs migs defs pre ++
      ({ Address := a, Actor := act, stateMigration := migs.lookup act.Code } :
        migrationInput) :: migrationJobs migs defs post := by
  unfold migrationJobs
  rw [List.filter_append, List.map_append, List.filter_cons]
  have hmem : act.Code ∉ defs := by simpa using hnd
  simp [hmem]

theorem jobOutcomes_append_cons (migs : List (Cid × StateMigration))
    (defs : List Cid) (store : Store) (pre post : List (Address × Actor))
    (a : Address) (act : Actor) (ep : Int)
    (hnd : defs.contains act.Code = false) :
    jobOutcomes migs defs store (pre ++ (a, act) :: post) ep =
      jobOutcomes migs defs store pre ep ++
      migrateOneActor store
        { Address := a, Actor := act, stateMigration := migs.lookup act.Code }
        ep ::
      jobOutcomes migs defs store post ep := by
  unfold jobOutcomes
  rw [migrationJobs_append_cons migs defs pre post a act hnd, List.map_append,
    List.map_cons]

theorem jobOutcomes_pre_ok (migs : List (Cid × StateMigration)) (defs : List Cid)
    (store : Store) (pre : List (Address × Actor)) (ep : Int)
    (hpre : ∀ j ∈ migrationJobs migs defs pre,
      ∃ act3, migrateOneActor store j ep = .ok j.Address act3) :
    ∀ r ∈ jobOutcomes migs defs store pre ep, ∃ a act, r = .ok a act := by
  intro r hr
  rcases List.mem_map.mp hr with ⟨j, hj, rfl⟩
  rcases hpre j hj with ⟨act3, heq⟩
  exact ⟨j.Address, act3, heq⟩

/-- C3: if the migration capability of some job returns an error (and
every job the producer created before it succeeds), `migrateTree` returns
an error - the `MigOutcome.error` constructor carries no root, so no
partial output root is surfaced - and the error wraps the failing
record's type name (`ActorNameByCode` of its code CID) and its address. -/
theorem migrateTree_capability_error_fatal
    (migs : List (Cid × StateMigration)) (defs : List Cid) (w : Nat)
    (sched : List (Address × Actor3) → List (Address × Actor3))
    (store : Store) (ep : Int) (pre post : List (Address × Actor))
    (a : Address) (act : Actor) (msg : String) (m : StateMigration)
    (hw : w ≠ 0) (hreg : registrySizeOk migs defs)
    (hnd : defs.contains act.Code = false)
    (hm : migs.lookup act.Code = some m)
    (hfail : m store { address := a, balance := act.Balance, head := act.Head,
                       priorEpoch := ep } = Except.error msg)
    (hpre : ∀ j ∈ migrationJobs migs defs pre,
      ∃ act3, migrateOneActor store j ep = .ok j.Address act3) :
    migrateTree migs defs w sched store (pre ++ (a, act) :: post) ep =
      .error (.migrationError (ActorNameByCode act.Code) a msg) := by
  unfold migrateTree
  rw [if_neg hw, if_neg (by unfold registrySizeOk at hreg; omega)]
  have hone : migrateOneActor store
      { Address := a, Actor := act, stateMigration := migs.lookup act.Code } ep =
      .failed (ActorNameByCode act.Code) a msg := by
    simp only [migrateOneActor, hm, hfail]
  rw [jobOutcomes_append_cons migs defs store pre post a act ep hnd,
    firstBad_append_of_ok _ _ (jobOutcomes_pre_ok migs defs store pre ep hpre),
    hone]
  rfl

/-- Witness for C3: a one-record tree whose record's capability fails. -/
theorem migrateTree_capability_error_fatal_witness :
    migrateTree failRegistry [] 1 id []
      ([] ++ ((2 : Address), Actor.mk 0 7 1 4) :: []) 0 =
      .error (.migrationError (ActorNameByCode 0) 2 "boom") :=
  migrateTree_capability_error_fatal failRegistry [] 1 id [] 0 [] [] 2
    (Actor.mk 0 7 1 4) "boom" failCap (by norm_num) (by decide) rfl rfl rfl
    (by intro j hj; exact absurd hj (List.not_mem_nil j))

/- ### C4 (corrected): a missing mapping crashes inside the job -/

/-- Counterexample to C4 as stated: with the source registry (which
passes the completeness assertion), a tree containing the unregistered
code CID 99 does not make `migrateTree` fail with a registry-completeness
failure before any jobs run; the producer publishes the job with a nil
capability (the Go map index yields the nil interface) and the run
crashes inside the worker when the job is executed. -/
theorem migrateTree_missing_mapping_cex :
    MigrateStateTree dummyCap dummyCap dummyCap dummyCap dummyCap dummyCap
      dummyCap 1 id [] [((7 : Address), Actor.mk 99 5 0 0)] 0 =
      .panicked (.nilCapability 7) ∧
    MigrateStateTree dummyCap dummyCap dummyCap dummyCap dummyCap dummyCap
      dummyCap 1 id [] [((7 : Address), Actor.mk 99 5 0 0)] 0 ≠
      .panicked (.incompleteSpec 11) := by
  constructor
  · rfl
  · intro h
    rw [show MigrateStateTree dummyCap dummyCap dummyCap dummyCap dummyCap
        dummyCap dummyCap 1 id [] [((7 : Address), Actor.mk 99 5 0 0)] 0 =
        .panicked (.nilCapability 7) from rfl] at h
    injection h with h
    exact PanicKind.noConfusion h

/-- C4 amended: a non-deferred record whose code CID has no registry
mapping is not rejected before jobs run; its job is published with a nil
capability and the run crashes (`.panicked (.nilCapability _)`, the Go
nil-interface-method panic) when a worker executes that job - provided
the jobs published before it succeed. -/
theorem migrateTree_missing_mapping_panics
    (migs : List (Cid × StateMigration)) (defs : List Cid) (w : Nat)
    (sched : List (Address × Actor3) → List (Address × Actor3))
    (store : Store) (ep : Int) (pre post : List (Address × Actor))
    (a : Address) (act : Actor)
    (hw : w ≠ 0) (hreg : registrySizeOk migs defs)
    (hnd : defs.contains act.Code = false)
    (hmiss : migs.lookup act.Code = none)
    (hpre : ∀ j ∈ migrationJobs migs defs pre,
      ∃ act3, migrateOneActor store j ep = .ok j.Address act3) :
    migrateTree migs defs w sched store (pre ++ (a, act) :: post) ep =
      .panicked (.nilCapability a) := by
  unfold migrateTree
  rw [if_neg hw, if_neg (by unfold registrySizeOk at hreg; omega)]
  have hone : migrateOneActor store
      { Address := a, Actor := act, stateMigration := migs.lookup act.Code } ep =
      .nilPanic a := by
    simp only [migrateOneActor, hmiss]
  rw [jobOutcomes_append_cons migs defs store pre post a act ep hnd,
    firstBad_append_of_ok _ _ (jobOutcomes_pre_ok migs defs store pre ep hpre),
    hone]
  rfl

/-- Witness for the amended C4 at a concrete unregistered code CID. -/
theorem migrateTree_missing_mapping_panics_witness :
    migrateTree nilRegistry [] 1 id []
      ([] ++ ((7 : Address), Actor.mk 99 5 0 0) :: []) 0 =
      .panicked (.nilCapability 7) :=
  migrateTree_missing_mapping_panics nilRegistry [] 1 id [] 0 [] [] 7
    (Actor.mk 99 5 0 0) (by norm_num) (by decide) rfl rfl
    (by intro j hj; exact absurd hj (List.not_mem_nil j))

/- ### C5 (corrected): the completeness assertion counts code CIDs -/

/-- Counterexample to C5 as stated: the assertion checked before any
work only counts code CIDs; a registry whose mapped tags united with the
deferred tags differ from the valid tag set, but number eleven, passes
the check and the run proceeds all the way to a flushed root. -/
theorem registry_check_counts_only_cex :
    ((skewedRegistry.map Prod.fst).toFinset ∪ deferredCodeIDs.toFinset ≠
      validCodeIDs.toFinset) ∧
    migrateTree skewedRegistry deferredCodeIDs 1 id [] [] 0 =
      .ok (∅ : Finset (Address × Actor3)) := by
  constructor
  · decide
  · rfl

/-- C5 amended: the completeness check the code performs, once and before
any migration work (the outcome below is uniform in the tree, store and
epoch), is the cardinality assertion `|mapped tags| + |deferred tags| =
11`; on a count mismatch the run panics (an assertion, not a returned
error).  The source's concrete registry does satisfy the stronger union
invariant: its mapped tags united with the deferred tags are exactly the
valid input type tags. -/
theorem registry_completeness_assertion
    (migs : List (Cid × StateMigration)) (defs : List Cid) (w : Nat)
    (sched : List (Address × Actor3) → List (Address × Actor3))
    (store : Store) (tree : List (Address × Actor)) (ep : Int)
    (i m p mk mn pw v : StateMigration)
    (hw : w ≠ 0) (hbad : ¬ registrySizeOk migs defs) :
    (migrateTree migs defs w sched store tree ep =
      .panicked (.incompleteSpec (migs.map Prod.fst).dedup.length)) ∧
    registrySizeOk (migrations i m p mk mn pw v) deferredCodeIDs ∧
    ((migrations i m p mk mn pw v).map Prod.fst).toFinset ∪
      deferredCodeIDs.toFinset = validCodeIDs.toFinset := by
  have hkeys : (migrations i m p mk mn pw v).map Prod.fst = validCodeIDs := rfl
  refine ⟨?_, ?_, ?_⟩
  · unfold migrateTree
    rw [if_neg hw,
      if_pos (by unfold registrySizeOk at hbad; omega)]
  · unfold registrySizeOk
    rw [hkeys]
    decide
  · rw [hkeys]
    decide

/-- Witness for the amended C5: the empty registry fails the count check
and panics, and the concrete registry satisfies the union invariant. -/
theorem registry_completeness_assertion_witness :
    (migrateTree [] [] 1 id [] [((1 : Address), Actor.mk 0 0 0 0)] 0 =
      .panicked
        (.incompleteSpec (([] : List (Cid × StateMigration)).map
          Prod.fst).dedup.length)) ∧
    registrySizeOk
      (migrations dummyCap dummyCap dummyCap dummyCap dummyCap dummyCap dummyCap)
      deferredCodeIDs ∧
    ((migrations dummyCap dummyCap dummyCap dummyCap dummyCap dummyCap
        dummyCap).map Prod.fst).toFinset ∪ deferredCodeIDs.toFinset =
      validCodeIDs.toFinset :=
  registry_completeness_assertion [] [] 1 id [] [(1, Actor.mk 0 0 0 0)] 0
    dummyCap dummyCap dummyCap dummyCap dummyCap dummyCap dummyCap
    (by norm_num) (by decide)

/- ### C10: the progress monitor's wrapping subtraction -/

/-- C10: the progress monitor's pending count is the unsigned 32-bit
difference of its counter snapshots: for true totals `J` and `D` (whose
uint32 counters hold `J % 2^32` and `D % 2^32`), the reported pending
equals `(J - D) mod 2^32` in integers; and whenever the completed
snapshot `d` exceeds the created snapshot `j`, the reported value wraps
to `2^32 - (d - j)` - near `2^32`, never negative nor zero. -/
theorem pendingNow_wraparound (J D j d : Nat) (hj : j < 2 ^ 32)
    (hd : d < 2 ^ 32) (hlt : j < d) :
    ((pendingNow (J % 2 ^ 32) (D % 2 ^ 32) : Int) =
      ((J : Int) - (D : Int)) % 2 ^ 32) ∧
    pendingNow j d = 2 ^ 32 - (d - j) ∧ 0 < pendingNow j d := by
  have h32 : (2 : Nat) ^ 32 = 4294967296 := by norm_num
  have h32i : (2 : Int) ^ 32 = 4294967296 := by norm_num
  unfold pendingNow
  rw [h32, h32i]
  refine ⟨?_, ?_, ?_⟩ <;> omega

/-- Witness for C10 at snapshots 1 created, 3 completed. -/
theorem pendingNow_wraparound_witness :
    ((pendingNow (1 % 2 ^ 32) (3 % 2 ^ 32) : Int) =
      ((1 : Int) - (3 : Int)) % 2 ^ 32) ∧
    pendingNow 1 3 = 2 ^ 32 - (3 - 1) ∧ 0 < pendingNow 1 3 :=
  pendingNow_wraparound 1 3 1 3 (by norm_num) (by norm_num) (by norm_num)

/- ### C8: worker-count configuration check -/

/-- C8: with `maxWorkers = 0` the run fails with the invalid-config error
uniformly in every other argument - before the tree is consulted at all -
while for any positive worker count the outcome is never an
invalid-config error. -/
theorem migrateTree_worker_config_check
    (i m p mk mn pw v : StateMigration) (w w' : Nat)
    (sched : List (Address × Actor3) → List (Address × Actor3))
    (store : Store) (tree : List (Address × Actor)) (ep : Int)
    (hw : 0 < w) :
    (MigrateStateTree i m p mk mn pw v 0 sched store tree ep =
      .error (.invalidConfig 0)) ∧
    MigrateStateTree i m p mk mn pw v w sched store tree ep ≠
      .error (.invalidConfig w') := by
  constructor
  · rfl
  · intro hcontra
    unfold MigrateStateTree migrateTree at hcontra
    rw [if_neg (Nat.pos_iff_ne_zero.mp hw)] at hcontra
    split at hcontra
    · exact MigOutcome.noConfusion hcontra
    · split at hcontra
      · next bad hb =>
        rcases firstBad_shape _ _ hb with ⟨n, a, s, rfl⟩ | ⟨a, rfl⟩
        · injection hcontra with h; exact MigErr.noConfusion h
        · exact MigOutcome.noConfusion hcontra
      · exact MigOutcome.noConfusion hcontra

/-- Witness for C8: zero workers fail, one worker passes the check. -/
theorem migrateTree_worker_config_check_witness :
    (MigrateStateTree dummyCap dummyCap dummyCap dummyCap dummyCap dummyCap
      dummyCap 0 id [] [] 0 = .error (.invalidConfig 0)) ∧
    MigrateStateTree dummyCap dummyCap dummyCap dummyCap dummyCap dummyCap
      dummyCap 1 id [] [] 0 ≠ .error (.invalidConfig 1) :=
  migrateTree_worker_config_check dummyCap dummyCap dummyCap dummyCap dummyCap
    dummyCap dummyCap 1 1 id [] [] 0 (by norm_num)
